import Mathlib

/-!
Shallow embedding of src/main.py (polar-plant EC dashboard).

Strings are modelled as lists of Unicode codepoints (List Nat).
unicodedata.normalize is modelled by the algorithmic Hangul
decomposition / composition of the Unicode standard, which is exactly
what NFD / NFC do on the character repertoire this program handles
(Hangul syllables, Hangul jamo, and ASCII, none of which carry other
canonical decompositions or combining classes).
-/

namespace PolarPlant

/-- A string as a list of Unicode codepoints. -/
abbrev Str := List Nat

/-! ### Hangul NFD / NFC (unicodedata.normalize) -/

/-- Leading consonant jamo (choseong), U+1100..U+1112. -/
def isL (c : Nat) : Bool := 0x1100 ≤ c && c ≤ 0x1112

/-- Vowel jamo (jungseong), U+1161..U+1175. -/
def isV (c : Nat) : Bool := 0x1161 ≤ c && c ≤ 0x1175

/-- Trailing consonant jamo (jongseong), U+11A8..U+11C2. -/
def isT (c : Nat) : Bool := 0x11A8 ≤ c && c ≤ 0x11C2

/-- Precomposed Hangul syllable, U+AC00..U+D7A3. -/
def isSyllable (c : Nat) : Bool := 0xAC00 ≤ c && c ≤ 0xD7A3

/-- An LV syllable (no trailing consonant): candidate for composing with a T jamo. -/
def isLVSyllable (c : Nat) : Bool := isSyllable c && (c - 0xAC00) % 28 = 0

/-- Canonical decomposition of one character (Unicode Hangul decomposition
algorithm); characters without a decomposition map to themselves. -/
def decomposeChar (c : Nat) : List Nat :=
  if isSyllable c then
    let s := c - 0xAC00
    let l := 0x1100 + s / 588
    let v := 0x1161 + s % 588 / 28
    let t := s % 28
    if t = 0 then [l, v] else [l, v, 0x11A7 + t]
  else [c]

/-- NFD on the Hangul/ASCII fragment: decompose every character. -/
def nfd : Str → Str
  | [] => []
  | c :: rest => decomposeChar c ++ nfd rest

/-- Compose an L jamo and a V jamo into an LV syllable (Unicode Hangul
composition arithmetic). -/
def composeLV (l v : Nat) : Nat := 0xAC00 + (l - 0x1100) * 588 + (v - 0x1161) * 28

/-- NFC on the Hangul/ASCII fragment: canonical composition, L+V → LV,
LV+T → LVT. -/
def nfc : Str → Str
  | [] => []
  | [a] => [a]
  | a :: b :: rest =>
    if isL a && isV b then
      match rest with
      | [] => [composeLV a b]
      | t :: rest2 =>
        if isT t then (composeLV a b + (t - 0x11A7)) :: nfc rest2
        else composeLV a b :: nfc (t :: rest2)
    else if isLVSyllable a && isT b then
      (a + (b - 0x11A7)) :: nfc rest
    else
      a :: nfc (b :: rest)

/-- src/main.py line 33: unicodedata.normalize("NFC", unicodedata.normalize("NFD", t)). -/
def normalize_text (t : Str) : Str := nfc (nfd t)

/-! ### Concrete strings used by the program -/

/-- "환경데이터" (environment-data keyword), NFC form. -/
def kwEnvData : Str := [0xD658, 0xACBD, 0xB370, 0xC774, 0xD130]

/-- "생육결과데이터" (growth-result-data keyword), NFC form. -/
def kwGrowthData : Str := [0xC0DD, 0xC721, 0xACB0, 0xACFC, 0xB370, 0xC774, 0xD130]

/-- "송도고", NFC form. -/
def songdo : Str := [0xC1A1, 0xB3C4, 0xACE0]

/-- "하늘고", NFC form. -/
def haneul : Str := [0xD558, 0xB298, 0xACE0]

/-- "아라고", NFC form. -/
def ara : Str := [0xC544, 0xB77C, 0xACE0]

/-- "동산고", NFC form. -/
def dongsan : Str := [0xB3D9, 0xC0B0, 0xACE0]

/-! ### Data model -/

/-- Python exceptions the embedded fragment can raise: FileNotFoundError from
Path.iterdir on a missing directory, and parse failures from the readers. -/
inductive PyError where
  | notFound
  | parseError
deriving DecidableEq

/-- One row of a per-site environment CSV: columns time, temperature,
humidity, ph, ec.  Timestamps are modelled as already parsed
(the pd.to_datetime coercion is outside the scope of the claims). -/
structure EnvRow where
  time : Nat
  temperature : Rat
  humidity : Rat
  ph : Rat
  ec : Rat
deriving DecidableEq

/-- An environment row after the loader adds the 학교 (school) column. -/
structure TaggedEnvRow where
  row : EnvRow
  school : Str
deriving DecidableEq

/-- One row of a growth-result sheet; the 생중량(g) (fresh-weight) column. -/
structure GrowRow where
  freshWeight : Rat
deriving DecidableEq

/-- A growth row after the loader adds the 학교 (school) column. -/
structure TaggedGrowRow where
  row : GrowRow
  school : Str
deriving DecidableEq

/-- File contents: a CSV table or an Excel workbook of named sheets. -/
inductive FileData where
  | csv : List EnvRow → FileData
  | workbook : List (Str × List GrowRow) → FileData
deriving DecidableEq

/-- A directory entry: filename plus contents. -/
structure DirFile where
  name : Str
  data : FileData
deriving DecidableEq

/-- src/main.py lines 25-30: static site → target-EC configuration table. -/
def SCHOOL_EC : List (Str × Rat) := [(songdo, 1), (haneul, 2), (ara, 4), (dongsan, 8)]

/-- Python dict lookup (d.get(k) / d[k] returning None when absent; also the
semantics of Series.map over a dict, which yields null for missing keys). -/
def dlookup {α : Type} : List (Str × α) → Str → Option α
  | [], _ => none
  | (k, v) :: rest, s => if s = k then some v else dlookup rest s

/-- Python dict assignment d[k] = v: update in place if the key exists,
else append, preserving insertion order. -/
def dictSet {α : Type} (m : List (Str × α)) (k : Str) (v : α) : List (Str × α) :=
  if m.any fun p => p.1 == k then m.map fun p => if p.1 = k then (k, v) else p
  else m ++ [(k, v)]

/-! ### File Locator (src/main.py lines 36-41) -/

/-- The Python expression needle in haystack on strings: contiguous
substring containment. -/
def strContains (haystack needle : Str) : Bool := decide (needle <:+: haystack)

/-- find_files: iterate the directory (FileNotFoundError when it does not
exist) and keep files whose normalized name contains the normalized keyword. -/
def find_files (directory : Option (List DirFile)) (keyword : Str) :
    Except PyError (List DirFile) :=
  match directory with
  | none => .error .notFound
  | some files =>
    .ok (files.filter fun f => strContains (normalize_text f.name) (normalize_text keyword))

/-! ### Dataset Loaders (src/main.py lines 44-69) -/

/-- pd.read_csv: succeeds on a CSV file, raises on anything else. -/
def read_csv : FileData → Except PyError (List EnvRow)
  | .csv rows => .ok rows
  | .workbook _ => .error .parseError

/-- pd.ExcelFile + per-sheet read_excel: the sheets of a workbook, in order. -/
def readWorkbook : FileData → Except PyError (List (Str × List GrowRow))
  | .workbook sheets => .ok sheets
  | .csv _ => .error .parseError

/-- f.name.split("_")[0]: the text before the first underscore (U+005F). -/
def splitUnderscore (name : Str) : Str := name.takeWhile fun c => c != 0x5F

abbrev EnvMap := List (Str × List TaggedEnvRow)
abbrev GrowMap := List (Str × List TaggedGrowRow)

/-- df["학교"] = school on an environment table. -/
def tagEnvRows (rows : List EnvRow) (school : Str) : List TaggedEnvRow :=
  rows.map fun r => ⟨r, school⟩

/-- The loader's for-loop over matched files: read each CSV, derive the school
from the raw filename prefix, tag the rows, store under the school key. -/
def envLoop : List DirFile → EnvMap → Except PyError EnvMap
  | [], acc => .ok acc
  | f :: rest, acc =>
    match read_csv f.data with
    | .error e => .error e
    | .ok rows =>
      envLoop rest (dictSet acc (splitUnderscore f.name)
        (tagEnvRows rows (splitUnderscore f.name)))

/-- src/main.py lines 44-56: load_environment_data. -/
def load_environment_data (dataDir : Option (List DirFile)) :
    Except PyError (Option EnvMap) :=
  match find_files dataDir kwEnvData with
  | .error e => .error e
  | .ok env_files =>
    if env_files.isEmpty then .ok none
    else
      match envLoop env_files [] with
      | .error e => .error e
      | .ok m => .ok (some m)

/-- df["학교"] = sheet on a growth table. -/
def tagGrowRows (rows : List GrowRow) (school : Str) : List TaggedGrowRow :=
  rows.map fun r => ⟨r, school⟩

/-- The loader's for-loop over the sheets of the chosen workbook. -/
def growLoop : List (Str × List GrowRow) → GrowMap → GrowMap
  | [], acc => acc
  | (sheet, rows) :: rest, acc => growLoop rest (dictSet acc sheet (tagGrowRows rows sheet))

/-- src/main.py lines 58-69: load_growth_data (uses only xlsx_files[0]). -/
def load_growth_data (dataDir : Option (List DirFile)) :
    Except PyError (Option GrowMap) :=
  match find_files dataDir kwGrowthData with
  | .error e => .error e
  | .ok xlsx_files =>
    match xlsx_files with
    | [] => .ok none
    | f0 :: _ =>
      match readWorkbook f0.data with
      | .error e => .error e
      | .ok sheets => .ok (some (growLoop sheets []))

/-! ### Aggregation / Reporting (src/main.py lines 93-108, 149-153) -/

/-- pd.concat(grow_data.values()): all tagged growth rows in mapping order. -/
def grow_all (grow_data : GrowMap) : List TaggedGrowRow :=
  (grow_data.map Prod.snd).flatten

/-- pd.concat(env_data.values()): all tagged environment rows in mapping order. -/
def env_all (env_data : EnvMap) : List TaggedEnvRow :=
  (env_data.map Prod.snd).flatten

/-- Arithmetic mean of a rational column. -/
def mean (xs : List Rat) : Rat := xs.sum / (xs.length : Rat)

/-- grow_all["학교"].map(SCHOOL_EC) on one row: the derived EC column, null
(none) when the school has no configuration entry. -/
def ecOfRow (r : TaggedGrowRow) : Option Rat := dlookup SCHOOL_EC r.school

/-- The 생중량(g) values of the rows in the EC-group of e. -/
def groupWeights (rows : List TaggedGrowRow) (e : Rat) : List Rat :=
  (rows.filter fun r => ecOfRow r == some e).map fun r => r.row.freshWeight

/-- groupby("EC")["생중량(g)"].mean(): group keys are the distinct non-null
derived ECs, sorted ascending (pandas sort=True); null keys are dropped. -/
def ec_mean (rows : List TaggedGrowRow) : List (Rat × Rat) :=
  (List.insertionSort (fun a b => a ≤ b) (rows.filterMap ecOfRow).dedup).map
    fun e => (e, mean (groupWeights rows e))

/-- ec_mean["생중량(g)"].max(): the best reported group mean. -/
def best_val (rows : List TaggedGrowRow) : Option Rat :=
  ((ec_mean rows).map Prod.snd).max?

/-- One row of the overview table: 학교명, EC 목표, 개체수. -/
structure InfoRow where
  schoolName : Str
  ecTarget : Rat
  count : Nat
deriving DecidableEq

/-- src/main.py lines 93-96: the per-site summary, one row per configured
school, count from grow_data.get(k, []). -/
def info_df (grow_data : GrowMap) : List InfoRow :=
  SCHOOL_EC.map fun kv => ⟨kv.1, kv.2, ((dlookup grow_data kv.1).getD []).length⟩

/-- src/main.py line 102: best_ec = 2.0 (a literal constant). -/
def best_ec : Rat := 2

/-- The four overview metrics of tab 1. -/
structure OverviewMetrics where
  total_cnt : Nat
  avg_temp : Rat
  avg_hum : Rat
  bestEC : Rat
deriving DecidableEq

/-- src/main.py lines 99-108: the overview metrics. -/
def overviewMetrics (env_data : EnvMap) (grow_data : GrowMap) : OverviewMetrics :=
  { total_cnt := (grow_data.map fun kv => kv.2.length).sum
  , avg_temp := mean ((env_all env_data).map fun r => r.row.temperature)
  , avg_hum := mean ((env_all env_data).map fun r => r.row.humidity)
  , bestEC := best_ec }

/-- What the page shows: either the halting error path (st.error; st.stop,
src/main.py lines 75-77, nothing rendered) or the rendered views. -/
inductive AppView where
  | halted
  | rendered (info : List InfoRow) (metrics : OverviewMetrics)
      (ecMeans : List (Rat × Rat)) (bestVal : Option Rat)
deriving DecidableEq

/-- The top-level flow: load both datasets, halt if either is unavailable,
otherwise render the aggregate views. -/
def runApp (dataDir : Option (List DirFile)) : Except PyError AppView :=
  match load_environment_data dataDir with
  | .error e => .error e
  | .ok envOpt =>
    match load_growth_data dataDir with
    | .error e => .error e
    | .ok growOpt =>
      match envOpt, growOpt with
      | some env_data, some grow_data =>
        .ok (.rendered (info_df grow_data) (overviewMetrics env_data grow_data)
          (ec_mean (grow_all grow_data)) (best_val (grow_all grow_data)))
      | _, _ => .ok .halted


/-- Whether a directory entry is a CSV file. -/
def isCsvFile : DirFile → Bool
  | ⟨_, .csv _⟩ => true
  | ⟨_, .workbook _⟩ => false

/-- The rows of a CSV entry (empty for non-CSV entries; only used under an
isCsvFile hypothesis). -/
def csvRows : DirFile → List EnvRow
  | ⟨_, .csv rows⟩ => rows
  | ⟨_, .workbook _⟩ => []

/-- The files the Locator matches for the environment keyword. -/
def envMatches (files : List DirFile) : List DirFile :=
  files.filter fun g => strContains (normalize_text g.name) (normalize_text kwEnvData)

/-- The files the Locator matches for the growth keyword. -/
def growMatches (files : List DirFile) : List DirFile :=
  files.filter fun g => strContains (normalize_text g.name) (normalize_text kwGrowthData)


/-! ### Concrete directories and datasets used in the claim instances -/

/-- The file A_환경데이터.csv (keyword composed), with no data rows. -/
def fileA : DirFile := ⟨[0x41, 0x5F] ++ kwEnvData ++ [0x2E, 0x63, 0x73, 0x76], .csv []⟩

/-- The file A_환경데이터.csv with the keyword stored decomposed. -/
def fileA2 : DirFile := ⟨[0x41, 0x5F] ++ nfd kwEnvData ++ [0x2E, 0x63, 0x73, 0x76], .csv []⟩

/-- The file B_x.csv. -/
def fileB : DirFile := ⟨[0x42, 0x5F, 0x78, 0x2E, 0x63, 0x73, 0x76], .csv []⟩

/-- A sample environment row. -/
def envRow0 : EnvRow := ⟨0, 20, 50, 6, 1⟩

/-- 송도고_환경데이터.csv with the school prefix composed (NFC). -/
def fileSongdoNFC : DirFile :=
  ⟨songdo ++ [0x5F] ++ kwEnvData ++ [0x2E, 0x63, 0x73, 0x76], .csv [envRow0]⟩

/-- 송도고_환경데이터.csv with the school prefix decomposed (NFD). -/
def fileSongdoNFD : DirFile :=
  ⟨nfd songdo ++ [0x5F] ++ kwEnvData ++ [0x2E, 0x63, 0x73, 0x76], .csv [envRow0]⟩

/-- 생육결과데이터.xlsx whose single sheet name is 하늘고 in decomposed form. -/
def bookNFD : DirFile :=
  ⟨kwGrowthData ++ [0x2E, 0x78, 0x6C, 0x73, 0x78], .workbook [(nfd haneul, [⟨5⟩])]⟩

/-- 송도고_B_환경데이터.csv: a second file with the same derived prefix 송도고. -/
def fileSongdoB : DirFile :=
  ⟨songdo ++ [0x5F, 0x42, 0x5F] ++ kwEnvData ++ [0x2E, 0x63, 0x73, 0x76], .csv []⟩

/-- An unconfigured site name, "X". -/
def siteX : Str := [0x58]

/-- A growth record for the unconfigured site X. -/
def badRow : TaggedGrowRow := ⟨⟨5⟩, siteX⟩

/-- Growth records realizing fresh-weight groups {1: [1,2,3], 2: [5,6,7], 4: [2,2]}. -/
def sampleGrowthRows : List TaggedGrowRow :=
  [⟨⟨1⟩, songdo⟩, ⟨⟨2⟩, songdo⟩, ⟨⟨3⟩, songdo⟩,
   ⟨⟨5⟩, haneul⟩, ⟨⟨6⟩, haneul⟩, ⟨⟨7⟩, haneul⟩, ⟨⟨2⟩, ara⟩, ⟨⟨2⟩, ara⟩]

/-! ### Properties of the Text Normalizer -/

set_option maxRecDepth 4000 in
theorem decomposeChar_composeLV (l v : Nat) (hl : isL l = true) (hv : isV v = true) :
    decomposeChar (composeLV l v) = [l, v] := by
  simp only [isL, isV, Bool.and_eq_true, decide_eq_true_eq] at hl hv
  have hs : isSyllable (composeLV l v) = true := by
    simp only [isSyllable, composeLV, Bool.and_eq_true, decide_eq_true_eq]
    constructor <;> omega
  simp only [decomposeChar, hs, if_true, composeLV]
  have e0 : 0xAC00 + (l - 0x1100) * 588 + (v - 0x1161) * 28 - 0xAC00
      = (l - 0x1100) * 588 + (v - 0x1161) * 28 := by omega
  rw [e0]
  have e1 : ((l - 0x1100) * 588 + (v - 0x1161) * 28) / 588 = l - 0x1100 := by omega
  have e2 : ((l - 0x1100) * 588 + (v - 0x1161) * 28) % 588 = (v - 0x1161) * 28 := by omega
  have e3 : ((l - 0x1100) * 588 + (v - 0x1161) * 28) % 28 = 0 := by omega
  rw [e1, e2, e3]
  have e4 : (v - 0x1161) * 28 / 28 = v - 0x1161 := by omega
  rw [e4]
  simp only [composeLV] at hs
  rw [if_pos hs, if_pos rfl]
  have g1 : 4352 + (l - 4352) = l := by omega
  have g2 : 4449 + (v - 4449) = v := by omega
  rw [g1, g2]


set_option maxRecDepth 4000 in
theorem decomposeChar_composeLVT (l v t : Nat) (hl : isL l = true) (hv : isV v = true)
    (ht : isT t = true) :
    decomposeChar (composeLV l v + (t - 0x11A7)) = [l, v, t] := by
  simp only [isL, isV, isT, Bool.and_eq_true, decide_eq_true_eq] at hl hv ht
  simp only [decomposeChar, composeLV]
  have hs : isSyllable (0xAC00 + (l - 0x1100) * 588 + (v - 0x1161) * 28 + (t - 0x11A7))
      = true := by
    simp only [isSyllable, Bool.and_eq_true, decide_eq_true_eq]
    constructor <;> omega
  rw [if_pos hs]
  have e0 : 0xAC00 + (l - 0x1100) * 588 + (v - 0x1161) * 28 + (t - 0x11A7) - 0xAC00
      = (l - 0x1100) * 588 + (v - 0x1161) * 28 + (t - 0x11A7) := by omega
  rw [e0]
  have e1 : ((l - 0x1100) * 588 + (v - 0x1161) * 28 + (t - 0x11A7)) / 588 = l - 0x1100 := by
    omega
  have e2 : ((l - 0x1100) * 588 + (v - 0x1161) * 28 + (t - 0x11A7)) % 588
      = (v - 0x1161) * 28 + (t - 0x11A7) := by omega
  have e3 : ((l - 0x1100) * 588 + (v - 0x1161) * 28 + (t - 0x11A7)) % 28 = t - 0x11A7 := by
    omega
  rw [e1, e2, e3]
  have e4 : ((v - 0x1161) * 28 + (t - 0x11A7)) / 28 = v - 0x1161 := by omega
  rw [e4]
  have hne : ¬ (t - 0x11A7 = 0) := by omega
  rw [if_neg hne]
  have g1 : 0x1100 + (l - 0x1100) = l := by omega
  have g2 : 0x1161 + (v - 0x1161) = v := by omega
  have g3 : 0x11A7 + (t - 0x11A7) = t := by omega
  rw [g1, g2, g3]

theorem isSyllable_eq_false_of_lt (x : Nat) (h : x < 0xAC00) : isSyllable x = false := by
  simp only [isSyllable, Bool.and_eq_false_iff, decide_eq_false_iff_not]
  left
  omega

theorem mem_decomposeChar_not_syllable (c x : Nat) (hx : x ∈ decomposeChar c) :
    isSyllable x = false := by
  by_cases h : isSyllable c = true
  · simp only [decomposeChar, h, if_true] at hx
    simp only [isSyllable, Bool.and_eq_true, decide_eq_true_eq] at h
    split at hx <;>
      simp only [List.mem_cons, List.not_mem_nil, or_false] at hx
    · rcases hx with hx | hx <;> rw [hx] <;> (apply isSyllable_eq_false_of_lt; omega)
    · rcases hx with hx | hx | hx <;> rw [hx] <;> (apply isSyllable_eq_false_of_lt; omega)
  · rw [decomposeChar, if_neg h] at hx
    simp only [List.mem_singleton] at hx
    rw [hx]
    simp only [Bool.not_eq_true] at h
    exact h

theorem nfd_syllableFree (s : Str) : ∀ x ∈ nfd s, isSyllable x = false := by
  induction s with
  | nil => simp [nfd]
  | cons c rest ih =>
    intro x hx
    simp only [nfd, List.mem_append] at hx
    rcases hx with hx | hx
    · exact mem_decomposeChar_not_syllable c x hx
    · exact ih x hx

theorem decomposeChar_eq_self (c : Nat) (h : isSyllable c = false) : decomposeChar c = [c] := by
  simp [decomposeChar, h]

theorem nfd_eq_self (s : Str) (h : ∀ x ∈ s, isSyllable x = false) : nfd s = s := by
  induction s with
  | nil => rfl
  | cons c rest ih =>
    simp only [nfd, decomposeChar_eq_self c (h c (by simp)), List.cons_append,
      List.nil_append]
    rw [ih fun x hx => h x (by simp [hx])]

theorem nfc_two (a b : Nat) (hab : (isL a && isV b) = true) :
    nfc [a, b] = [composeLV a b] := by
  rw [nfc.eq_def]
  simp [hab]

theorem nfc_lvt (a b t : Nat) (rest2 : Str) (hab : (isL a && isV b) = true)
    (ht : isT t = true) :
    nfc (a :: b :: t :: rest2) = (composeLV a b + (t - 0x11A7)) :: nfc rest2 := by
  rw [nfc.eq_def]
  simp [hab, ht]

theorem nfc_lv_cons (a b t : Nat) (rest2 : Str) (hab : (isL a && isV b) = true)
    (ht : ¬ isT t = true) :
    nfc (a :: b :: t :: rest2) = composeLV a b :: nfc (t :: rest2) := by
  rw [nfc.eq_def]
  simp [hab, ht]

theorem nfc_lvsyl (a b : Nat) (rest : Str) (hn : ¬ (isL a && isV b) = true)
    (hb : (isLVSyllable a && isT b) = true) :
    nfc (a :: b :: rest) = (a + (b - 0x11A7)) :: nfc rest := by
  rw [nfc.eq_def]
  simp [hn, hb]

theorem nfc_default (a b : Nat) (rest : Str) (hn : ¬ (isL a && isV b) = true)
    (hn2 : ¬ (isLVSyllable a && isT b) = true) :
    nfc (a :: b :: rest) = a :: nfc (b :: rest) := by
  rw [nfc.eq_def]
  simp [hn, hn2]

theorem nfd_nfc_of_syllableFree (s : Str) (h : ∀ x ∈ s, isSyllable x = false) :
    nfd (nfc s) = s := by
  induction s using nfc.induct with
  | case1 => rfl
  | case2 a =>
    have e : nfc [a] = [a] := rfl
    rw [e, nfd_eq_self _ h]
  | case3 a b hab =>
    rw [Bool.and_eq_true] at hab
    rw [nfc_two a b (by simp [hab])]
    show decomposeChar (composeLV a b) ++ nfd [] = [a, b]
    rw [decomposeChar_composeLV a b hab.1 hab.2]
    rfl
  | case4 a b hab t rest2 ht ih =>
    rw [Bool.and_eq_true] at hab
    rw [nfc_lvt a b t rest2 (by simp [hab]) ht]
    show decomposeChar (composeLV a b + (t - 0x11A7)) ++ nfd (nfc rest2) = _
    rw [decomposeChar_composeLVT a b t hab.1 hab.2 ht,
      ih fun x hx => h x (by simp at hx ⊢; tauto)]
    rfl
  | case5 a b hab t rest2 ht ih =>
    rw [Bool.and_eq_true] at hab
    rw [nfc_lv_cons a b t rest2 (by simp [hab]) ht]
    show decomposeChar (composeLV a b) ++ nfd (nfc (t :: rest2)) = _
    rw [decomposeChar_composeLV a b hab.1 hab.2,
      ih fun x hx => h x (by simp at hx ⊢; tauto)]
    rfl
  | case6 a b rest hn hb ih =>
    exfalso
    rw [Bool.and_eq_true] at hb
    have ha : isSyllable a = true := by
      have h2 := hb.1
      simp only [isLVSyllable, Bool.and_eq_true] at h2
      exact h2.1
    have h3 := h a (by simp)
    rw [ha] at h3
    cases h3
  | case7 a b rest hn hn2 ih =>
    rw [nfc_default a b rest hn hn2]
    show decomposeChar a ++ nfd (nfc (b :: rest)) = _
    rw [decomposeChar_eq_self a (h a (by simp)),
      ih fun x hx => h x (by simp at hx ⊢; tauto)]
    rfl

theorem nfd_normalize_text (s : Str) : nfd (nfc (nfd s)) = nfd s :=
  nfd_nfc_of_syllableFree (nfd s) (nfd_syllableFree s)

/-! ### Dictionary lemmas -/

theorem dlookup_append {α : Type} (m1 m2 : List (Str × α)) (s : Str) :
    dlookup (m1 ++ m2) s =
      match dlookup m1 s with
      | some v => some v
      | none => dlookup m2 s := by
  induction m1 with
  | nil => rfl
  | cons p rest ih =>
    rcases p with ⟨k, v⟩
    by_cases h : s = k
    · simp [dlookup, h]
    · simp [dlookup, h, ih]

theorem dlookup_eq_none_of_any_eq_false {α : Type} (m : List (Str × α)) (k : Str)
    (h : (m.any fun p => p.1 == k) = false) : dlookup m k = none := by
  induction m with
  | nil => rfl
  | cons p rest ih =>
    simp only [List.any_cons, Bool.or_eq_false_iff] at h
    have h1 : ¬ (k = p.1) := by
      intro he
      rw [he] at h
      simp at h
    rcases p with ⟨k0, v0⟩
    simp only [dlookup, if_neg h1]
    exact ih h.2

theorem dlookup_map_update {α : Type} (m : List (Str × α)) (k k2 : Str) (v : α)
    (hne : ¬ k2 = k) :
    dlookup (m.map fun p => if p.1 = k then (k, v) else p) k2 = dlookup m k2 := by
  induction m with
  | nil => rfl
  | cons p rest ih =>
    rcases p with ⟨k0, v0⟩
    by_cases h : k0 = k
    · simp only [List.map_cons, h, if_pos rfl]
      simp only [dlookup, if_neg hne, if_neg (h ▸ hne)]
      exact ih
    · simp only [List.map_cons, if_neg h]
      by_cases h2 : k2 = k0
      · simp [dlookup, h2]
      · simp only [dlookup, if_neg h2]
        exact ih

theorem dlookup_map_update_self {α : Type} (m : List (Str × α)) (k : Str) (v : α)
    (hmem : (m.any fun p => p.1 == k) = true) :
    dlookup (m.map fun p => if p.1 = k then (k, v) else p) k = some v := by
  induction m with
  | nil => cases hmem
  | cons p rest ih =>
    rcases p with ⟨k0, v0⟩
    by_cases h : k0 = k
    · simp only [List.map_cons, h, if_pos rfl]
      simp [dlookup]
    · simp only [List.map_cons, if_neg h]
      have hke : ¬ k = k0 := fun he => h (Eq.symm he)
      simp only [dlookup, if_neg hke]
      apply ih
      simp only [List.any_cons] at hmem
      have : (k0 == k) = false := by
        simp [h]
      rw [this] at hmem
      simpa using hmem

theorem dlookup_dictSet {α : Type} (m : List (Str × α)) (k k2 : Str) (v : α) :
    dlookup (dictSet m k v) k2 = if k2 = k then some v else dlookup m k2 := by
  unfold dictSet
  by_cases hmem : (m.any fun p => p.1 == k) = true
  · rw [if_pos hmem]
    by_cases h : k2 = k
    · rw [if_pos h, h]
      exact dlookup_map_update_self m k v hmem
    · rw [if_neg h]
      exact dlookup_map_update m k k2 v h
  · rw [if_neg hmem]
    rw [dlookup_append]
    have hm := dlookup_eq_none_of_any_eq_false m k
      (by simp only [Bool.not_eq_true] at hmem; exact hmem)
    by_cases h : k2 = k
    · rw [if_pos h, h, hm]
      simp [dlookup]
    · rw [if_neg h]
      cases he : dlookup m k2 with
      | some w => rfl
      | none =>
        simp only [dlookup, if_neg h]

/-! ### Loader loop lemmas -/

theorem read_csv_eq_ok (f : DirFile) (rows : List EnvRow) (h : read_csv f.data = .ok rows) :
    csvRows f = rows := by
  rcases f with ⟨name, d⟩
  cases d with
  | csv r => simpa [read_csv, csvRows] using h
  | workbook s => simp [read_csv] at h

theorem envLoop_lookup (fs : List DirFile) (acc m : EnvMap) (k : Str)
    (hm : envLoop fs acc = .ok m) :
    dlookup m k =
      match (fs.filter fun f => splitUnderscore f.name == k).getLast? with
      | some f => some (tagEnvRows (csvRows f) k)
      | none => dlookup acc k := by
  induction fs generalizing acc with
  | nil =>
    simp only [envLoop] at hm
    cases hm
    rfl
  | cons f rest ih =>
    simp only [envLoop] at hm
    cases hcsv : read_csv f.data with
    | error e => rw [hcsv] at hm; cases hm
    | ok rows =>
      rw [hcsv] at hm
      have hrows : csvRows f = rows := read_csv_eq_ok f rows hcsv
      have ih2 := ih (dictSet acc (splitUnderscore f.name)
        (tagEnvRows rows (splitUnderscore f.name))) hm
      rw [ih2, List.filter_cons]
      by_cases hp : splitUnderscore f.name = k
      · have hfb : (splitUnderscore f.name == k) = true := by simp [hp]
        rw [if_pos hfb]
        cases hrest : (rest.filter fun x => splitUnderscore x.name == k) with
        | nil =>
          show dlookup (dictSet acc (splitUnderscore f.name)
            (tagEnvRows rows (splitUnderscore f.name))) k = some (tagEnvRows (csvRows f) k)
          rw [dlookup_dictSet, if_pos (Eq.symm hp), hrows, hp]
        | cons g l => rfl
      · have hfb : ¬ (splitUnderscore f.name == k) = true := by simp [hp]
        rw [if_neg hfb]
        cases hrest : (rest.filter fun x => splitUnderscore x.name == k) with
        | nil =>
          show dlookup (dictSet acc (splitUnderscore f.name)
            (tagEnvRows rows (splitUnderscore f.name))) k = dlookup acc k
          rw [dlookup_dictSet, if_neg fun he => hp (Eq.symm he)]
        | cons g l => rfl

theorem growLoop_lookup (ss : List (Str × List GrowRow)) (acc : GrowMap) (k : Str) :
    dlookup (growLoop ss acc) k =
      match (ss.filter fun s => s.1 == k).getLast? with
      | some s => some (tagGrowRows s.2 k)
      | none => dlookup acc k := by
  induction ss generalizing acc with
  | nil => rfl
  | cons s rest ih =>
    rcases s with ⟨sheet, rows⟩
    show dlookup (growLoop rest (dictSet acc sheet (tagGrowRows rows sheet))) k = _
    rw [ih, List.filter_cons]
    by_cases hp : sheet = k
    · have hfb : ((sheet, rows).1 == k) = true := by simp [hp]
      rw [if_pos hfb]
      cases hrest : (rest.filter fun s => s.1 == k) with
      | nil =>
        show dlookup (dictSet acc sheet (tagGrowRows rows sheet)) k = some (tagGrowRows rows k)
        rw [dlookup_dictSet, if_pos (Eq.symm hp), hp]
      | cons g l => rfl
    · have hfb : ¬ ((sheet, rows).1 == k) = true := by simp [hp]
      rw [if_neg hfb]
      cases hrest : (rest.filter fun s => s.1 == k) with
      | nil =>
        show dlookup (dictSet acc sheet (tagGrowRows rows sheet)) k = dlookup acc k
        rw [dlookup_dictSet, if_neg fun he => hp (Eq.symm he)]
      | cons g l => rfl

theorem envLoop_ok (fs : List DirFile) (acc : EnvMap) (h : ∀ f ∈ fs, isCsvFile f = true) :
    ∃ m, envLoop fs acc = .ok m := by
  induction fs generalizing acc with
  | nil => exact ⟨acc, rfl⟩
  | cons f rest ih =>
    have hf : isCsvFile f = true := h f (by simp)
    rcases f with ⟨name, d⟩
    cases d with
    | workbook s => simp [isCsvFile] at hf
    | csv rows =>
      simp only [envLoop, read_csv]
      exact ih _ fun g hg => h g (by simp [hg])

theorem mem_dictSet {α : Type} (m : List (Str × α)) (k : Str) (v : α) (p : Str × α)
    (hp : p ∈ dictSet m k v) : p ∈ m ∨ p = (k, v) := by
  unfold dictSet at hp
  split at hp
  · rcases List.mem_map.mp hp with ⟨q, hq, he⟩
    by_cases h : q.1 = k
    · rw [if_pos h] at he
      right
      exact he.symm
    · rw [if_neg h] at he
      left
      exact he ▸ hq
  · rcases List.mem_append.mp hp with h | h
    · left
      exact h
    · right
      simpa using h

theorem envLoop_tagged (fs : List DirFile) (acc m : EnvMap)
    (hm : envLoop fs acc = .ok m)
    (hacc : ∀ p ∈ acc, ∀ r ∈ p.2, r.school = p.1) :
    ∀ p ∈ m, ∀ r ∈ p.2, r.school = p.1 := by
  induction fs generalizing acc with
  | nil =>
    simp only [envLoop, Except.ok.injEq] at hm
    exact hm ▸ hacc
  | cons f rest ih =>
    simp only [envLoop] at hm
    cases hcsv : read_csv f.data with
    | error e => rw [hcsv] at hm; cases hm
    | ok rows =>
      rw [hcsv] at hm
      apply ih _ hm
      intro p hp r hr
      rcases mem_dictSet _ _ _ p hp with h | h
      · exact hacc p h r hr
      · rw [h] at hr ⊢
        simp only [tagEnvRows, List.mem_map] at hr
        rcases hr with ⟨r0, _, he⟩
        rw [← he]

theorem keys_dictSet_sub {α : Type} (m : List (Str × α)) (k : Str) (v : α) (x : Str)
    (hx : x ∈ (dictSet m k v).map Prod.fst) : x ∈ m.map Prod.fst ∨ x = k := by
  rcases List.mem_map.mp hx with ⟨p, hp, he⟩
  rcases mem_dictSet _ _ _ p hp with h | h
  · left
    exact he ▸ List.mem_map_of_mem Prod.fst h
  · right
    rw [← he, h]

theorem envLoop_keys_sub (fs : List DirFile) (acc m : EnvMap) (hm : envLoop fs acc = .ok m) :
    ∀ p ∈ m, p.1 ∈ acc.map Prod.fst ∨ ∃ f ∈ fs, splitUnderscore f.name = p.1 := by
  induction fs generalizing acc with
  | nil =>
    intro p hp
    simp only [envLoop, Except.ok.injEq] at hm
    left
    exact List.mem_map_of_mem Prod.fst (hm ▸ hp)
  | cons f rest ih =>
    simp only [envLoop] at hm
    cases hcsv : read_csv f.data with
    | error e => rw [hcsv] at hm; cases hm
    | ok rows =>
      rw [hcsv] at hm
      intro p hp
      rcases ih _ hm p hp with h | h
      · rcases keys_dictSet_sub _ _ _ _ h with h2 | h2
        · left
          exact h2
        · right
          exact ⟨f, by simp, h2.symm⟩
      · rcases h with ⟨g, hg, he⟩
        right
        exact ⟨g, by simp [hg], he⟩

theorem any_key_eq_false_iff {α : Type} (m : List (Str × α)) (k : Str) :
    (m.any fun p => p.1 == k) = false ↔ k ∉ m.map Prod.fst := by
  simp only [List.any_eq_false, beq_iff_eq, List.mem_map]
  constructor
  · rintro h ⟨p, hp, he⟩
    exact h p hp he
  · intro h p hp he
    exact h ⟨p, hp, he⟩

theorem keys_dictSet_append {α : Type} (m : List (Str × α)) (k : Str) (v : α)
    (hnot : (m.any fun p => p.1 == k) = false) :
    (dictSet m k v).map Prod.fst = m.map Prod.fst ++ [k] := by
  unfold dictSet
  rw [if_neg (by simp [hnot])]
  simp

theorem envLoop_keys (fs : List DirFile) (acc m : EnvMap) (hm : envLoop fs acc = .ok m)
    (hnd : (acc.map Prod.fst ++ fs.map fun f => splitUnderscore f.name).Nodup) :
    m.map Prod.fst = acc.map Prod.fst ++ fs.map fun f => splitUnderscore f.name := by
  induction fs generalizing acc with
  | nil =>
    simp only [envLoop, Except.ok.injEq] at hm
    simp [← hm]
  | cons f rest ih =>
    simp only [envLoop] at hm
    cases hcsv : read_csv f.data with
    | error e => rw [hcsv] at hm; cases hm
    | ok rows =>
      rw [hcsv] at hm
      have hknot : splitUnderscore f.name ∉ acc.map Prod.fst := by
        intro hin
        rcases List.nodup_append.mp hnd with ⟨h1, h2, hdisj⟩
        exact hdisj hin (by simp)
      have hany : (acc.any fun p => p.1 == splitUnderscore f.name) = false :=
        (any_key_eq_false_iff _ _).mpr hknot
      have hkeys := keys_dictSet_append acc _
        (tagEnvRows rows (splitUnderscore f.name)) hany
      have hnd2 : ((dictSet acc (splitUnderscore f.name)
          (tagEnvRows rows (splitUnderscore f.name))).map Prod.fst ++
          rest.map fun f => splitUnderscore f.name).Nodup := by
        rw [hkeys, List.append_assoc]
        exact hnd
      have ih2 := ih _ hm hnd2
      rw [ih2, hkeys, List.append_assoc]
      rfl

theorem growLoop_tagged (ss : List (Str × List GrowRow)) (acc : GrowMap)
    (hacc : ∀ p ∈ acc, ∀ r ∈ p.2, r.school = p.1) :
    ∀ p ∈ growLoop ss acc, ∀ r ∈ p.2, r.school = p.1 := by
  induction ss generalizing acc with
  | nil => exact hacc
  | cons s rest ih =>
    rcases s with ⟨sheet, rows⟩
    show ∀ p ∈ growLoop rest (dictSet acc sheet (tagGrowRows rows sheet)), _
    apply ih
    intro p hp r hr
    rcases mem_dictSet _ _ _ p hp with h | h
    · exact hacc p h r hr
    · rw [h] at hr ⊢
      simp only [tagGrowRows, List.mem_map] at hr
      rcases hr with ⟨r0, _, he⟩
      rw [← he]

theorem growLoop_keys_sub (ss : List (Str × List GrowRow)) (acc : GrowMap) :
    ∀ p ∈ growLoop ss acc, p.1 ∈ acc.map Prod.fst ∨ ∃ s ∈ ss, s.1 = p.1 := by
  induction ss generalizing acc with
  | nil =>
    intro p hp
    left
    exact List.mem_map_of_mem Prod.fst hp
  | cons s rest ih =>
    rcases s with ⟨sheet, rows⟩
    intro p hp
    rcases ih _ p hp with h | h
    · rcases keys_dictSet_sub _ _ _ _ h with h2 | h2
      · left
        exact h2
      · right
        exact ⟨(sheet, rows), by simp, h2.symm⟩
    · rcases h with ⟨g, hg, he⟩
      right
      exact ⟨g, by simp [hg], he⟩

theorem max?_spec (l : List Rat) (b : Rat) (h : l.max? = some b) :
    b ∈ l ∧ ∀ x ∈ l, x ≤ b := by
  have anti : Std.Antisymm (α := Rat) (· ≤ ·) := ⟨@fun a b h1 h2 => le_antisymm h1 h2⟩
  rw [List.max?_eq_some_iff] at h
  · exact h
  · exact fun a => le_refl a
  · exact fun a b => max_choice a b
  · exact fun a b c => max_le_iff

/-! ### Claim theorems -/

/-- C4: the Text Normalizer is idempotent — normalize(normalize(s)) equals
normalize(s) for all strings s — and the composed and the decomposed Unicode
encodings of the same visual text normalize to the same value. -/
theorem C4_normalize_idempotent :
    (∀ s : Str, normalize_text (normalize_text s) = normalize_text s) ∧
    (∀ s : Str, normalize_text (nfd s) = normalize_text s ∧
      normalize_text (nfc (nfd s)) = normalize_text s) := by
  refine ⟨fun s => ?_, fun s => ⟨?_, ?_⟩⟩
  · show nfc (nfd (nfc (nfd s))) = nfc (nfd s)
    rw [nfd_normalize_text]
  · show nfc (nfd (nfd s)) = nfc (nfd s)
    rw [nfd_eq_self (nfd s) (nfd_syllableFree s)]
  · show nfc (nfd (nfc (nfd s))) = nfc (nfd s)
    rw [nfd_normalize_text]

/-- C3: find_files returns exactly the files whose normalized name contains
the normalized keyword as a substring; on the directory
[A_환경데이터.csv, B_x.csv] with keyword 환경데이터 it returns exactly the
first file, in every combination of composed and decomposed storage of the
keyword and of the filename. -/
theorem C3_find_files_exact :
    (∀ (files : List DirFile) (kw : Str) (f : DirFile) (l : List DirFile),
      find_files (some files) kw = .ok l →
      (f ∈ l ↔ f ∈ files ∧ normalize_text kw <:+: normalize_text f.name)) ∧
    find_files (some [fileA, fileB]) kwEnvData = .ok [fileA] ∧
    find_files (some [fileA2, fileB]) kwEnvData = .ok [fileA2] ∧
    find_files (some [fileA, fileB]) (nfd kwEnvData) = .ok [fileA] ∧
    find_files (some [fileA2, fileB]) (nfd kwEnvData) = .ok [fileA2] := by
  refine ⟨?_, rfl, rfl, rfl, rfl⟩
  intro files kw f l hl
  simp only [find_files, Except.ok.injEq] at hl
  rw [← hl]
  simp [List.mem_filter, strContains]

/-- Instantiation of C3 at the concrete directory, discharging its
hypothesis. -/
theorem C3_find_files_exact_witness :
    fileA ∈ [fileA] ↔ fileA ∈ [fileA, fileB] ∧
      normalize_text kwEnvData <:+: normalize_text fileA.name :=
  C3_find_files_exact.1 [fileA, fileB] kwEnvData fileA [fileA] rfl

/-- C9: the File Locator fails with a NotFound error when the directory does
not exist; an empty match set for an existing directory is a valid non-error
outcome which the Loaders surface as the unavailable (none) result, not a
crash. -/
theorem C9_locator_notfound :
    (∀ kw : Str, find_files none kw = .error .notFound) ∧
    (∀ (files : List DirFile) (kw : Str), ∃ l, find_files (some files) kw = .ok l) ∧
    (∀ files : List DirFile, envMatches files = [] →
      load_environment_data (some files) = .ok none) ∧
    (∀ files : List DirFile, growMatches files = [] →
      load_growth_data (some files) = .ok none) := by
  refine ⟨fun kw => rfl, fun files kw => ⟨_, rfl⟩, ?_, ?_⟩
  · intro files h
    have h2 : find_files (some files) kwEnvData = .ok [] := by
      show Except.ok (envMatches files) = Except.ok []
      rw [h]
    unfold load_environment_data
    rw [h2]
    rfl
  · intro files h
    have h2 : find_files (some files) kwGrowthData = .ok [] := by
      show Except.ok (growMatches files) = Except.ok []
      rw [h]
    unfold load_growth_data
    rw [h2]

/-- Instantiation of C9 at a concrete directory with no keyword matches. -/
theorem C9_locator_notfound_witness :
    load_environment_data (some [fileB]) = .ok none ∧
    load_growth_data (some [fileB]) = .ok none :=
  ⟨C9_locator_notfound.2.2.1 [fileB] rfl, C9_locator_notfound.2.2.2 [fileB] rfl⟩

/-- C10: the overview 최적 EC metric is the constant 2.0 for every loaded
dataset — independent of the data — unlike the maximum mean fresh-weight,
which varies with the data. -/
theorem C10_best_ec_constant :
    (∀ (env_data : EnvMap) (grow_data : GrowMap),
      (overviewMetrics env_data grow_data).bestEC = 2 ∧
      (overviewMetrics env_data grow_data).bestEC = best_ec) ∧
    (∃ g1 g2 : GrowMap, best_val (grow_all g1) ≠ best_val (grow_all g2)) := by
  refine ⟨fun e g => ⟨rfl, rfl⟩,
    ⟨[(songdo, [⟨⟨1⟩, songdo⟩])], [(songdo, [⟨⟨3⟩, songdo⟩])], ?_⟩⟩
  have b1 : best_val (grow_all [(songdo, [⟨⟨1⟩, songdo⟩])]) = some 1 := by
    unfold best_val ec_mean
    rw [show ((grow_all [(songdo, [⟨⟨1⟩, songdo⟩])]).filterMap ecOfRow).dedup = [1] from
      by decide]
    rw [show List.insertionSort (fun a b => a ≤ b) [(1 : Rat)] = [1] from by decide]
    simp only [List.map_cons, List.map_nil]
    rw [show groupWeights (grow_all [(songdo, [⟨⟨1⟩, songdo⟩])]) 1 = [1] from by decide]
    rw [show mean [(1 : Rat)] = 1 from by norm_num [mean]]
    rfl
  have b3 : best_val (grow_all [(songdo, [⟨⟨3⟩, songdo⟩])]) = some 3 := by
    unfold best_val ec_mean
    rw [show ((grow_all [(songdo, [⟨⟨3⟩, songdo⟩])]).filterMap ecOfRow).dedup = [1] from
      by decide]
    rw [show List.insertionSort (fun a b => a ≤ b) [(1 : Rat)] = [1] from by decide]
    simp only [List.map_cons, List.map_nil]
    rw [show groupWeights (grow_all [(songdo, [⟨⟨3⟩, songdo⟩])]) 1 = [3] from by decide]
    rw [show mean [(3 : Rat)] = 3 from by norm_num [mean]]
    rfl
  intro heq
  rw [b1, b3] at heq
  simp only [Option.some.injEq] at heq
  norm_num at heq

/-- C7: the per-EC aggregation joins each record to its site's configured EC,
groups by it, takes arithmetic mean fresh-weight per group, and reports the
maximum group mean; on records grouped as {1: [1,2,3], 2: [5,6,7], 4: [2,2]}
the group means are 2, 6, 2 and the reported best mean is 6.0; in general the
best value is itself a group mean and an upper bound of all group means. -/
theorem C7_best_group_mean :
    ec_mean sampleGrowthRows = [(1, 2), (2, 6), (4, 2)] ∧
    best_val sampleGrowthRows = some 6 ∧
    (∀ (rows : List TaggedGrowRow) (b : Rat), best_val rows = some b →
      (∃ e, (e, b) ∈ ec_mean rows) ∧ ∀ e m, (e, m) ∈ ec_mean rows → m ≤ b) := by
  have hmean : ec_mean sampleGrowthRows = [(1, 2), (2, 6), (4, 2)] := by
    unfold ec_mean
    rw [show (sampleGrowthRows.filterMap ecOfRow).dedup = [1, 2, 4] from by decide]
    rw [show List.insertionSort (fun a b => a ≤ b) [(1 : Rat), 2, 4] = [1, 2, 4] from
      by decide]
    simp only [List.map_cons, List.map_nil]
    rw [show groupWeights sampleGrowthRows 1 = [1, 2, 3] from by decide]
    rw [show groupWeights sampleGrowthRows 2 = [5, 6, 7] from by decide]
    rw [show groupWeights sampleGrowthRows 4 = [2, 2] from by decide]
    rw [show mean [(1 : Rat), 2, 3] = 2 from by norm_num [mean]]
    rw [show mean [(5 : Rat), 6, 7] = 6 from by norm_num [mean]]
    rw [show mean [(2 : Rat), 2] = 2 from by norm_num [mean]]
  refine ⟨hmean, ?_, ?_⟩
  · unfold best_val
    rw [hmean]
    simp only [List.map_cons, List.map_nil]
    decide
  · intro rows b hb
    have h := max?_spec _ b hb
    constructor
    · rcases List.mem_map.mp h.1 with ⟨p, hp, he⟩
      refine ⟨p.1, ?_⟩
      rw [← he]
      simpa using hp
    · intro e m hm
      exact h.2 m (List.mem_map_of_mem Prod.snd hm)

/-- Instantiation of the general clause of C7 at the sample records. -/
theorem C7_best_group_mean_witness :
    (∃ e, (e, (6 : Rat)) ∈ ec_mean sampleGrowthRows) ∧
    ∀ e m, (e, m) ∈ ec_mean sampleGrowthRows → m ≤ 6 :=
  C7_best_group_mean.2.2 sampleGrowthRows 6 C7_best_group_mean.2.1

/-- C1 fails on the code: at the concrete growth record for the unconfigured
site X, the derived EC column is null (none), the per-EC aggregation returns
the empty aggregate and a null best value instead of raising any error, and
the per-site summary silently shows count 0 everywhere — exactly the silent
degradation the claim says cannot happen. -/
theorem C1_counterexample :
    ecOfRow badRow = none ∧
    ec_mean [badRow] = [] ∧
    best_val [badRow] = none ∧
    info_df [(siteX, [badRow])] =
      [⟨songdo, 1, 0⟩, ⟨haneul, 2, 0⟩, ⟨ara, 4, 0⟩, ⟨dongsan, 8, 0⟩] := by
  refine ⟨rfl, rfl, rfl, by decide⟩

theorem filterMap_ecOfRow_filter (rows : List TaggedGrowRow) :
    (rows.filter fun r => (ecOfRow r).isSome).filterMap ecOfRow =
      rows.filterMap ecOfRow := by
  induction rows with
  | nil => rfl
  | cons r rest ih =>
    cases he : ecOfRow r with
    | none => simp [List.filter_cons, List.filterMap_cons, he, ih]
    | some e => simp [List.filter_cons, List.filterMap_cons, he, ih]

theorem groupWeights_filter (rows : List TaggedGrowRow) (e : Rat) :
    groupWeights (rows.filter fun r => (ecOfRow r).isSome) e = groupWeights rows e := by
  unfold groupWeights
  rw [List.filter_filter]
  congr 1
  apply List.filter_congr
  intro r hr
  cases he : ecOfRow r <;> simp [he]

/-- C1 (amended): for growth records whose site has no entry in SCHOOL_EC the
aggregation does not fail — it silently ignores them: the per-EC aggregation
equals the aggregation of the configured-site records only, every reported EC
group arises from a configured record, and the per-site summary enumerates
exactly the configured sites, reporting count 0 for a configured site with no
growth data. -/
theorem C1_amended_silent_drop :
    (∀ rows : List TaggedGrowRow,
      ec_mean rows = ec_mean (rows.filter fun r => (ecOfRow r).isSome)) ∧
    (∀ (rows : List TaggedGrowRow) (e m : Rat), (e, m) ∈ ec_mean rows →
      ∃ r ∈ rows, ecOfRow r = some e) ∧
    (∀ gd : GrowMap, (info_df gd).map InfoRow.schoolName = SCHOOL_EC.map Prod.fst) ∧
    (∀ (gd : GrowMap) (kv : Str × Rat), kv ∈ SCHOOL_EC → dlookup gd kv.1 = none →
      InfoRow.mk kv.1 kv.2 0 ∈ info_df gd) := by
  refine ⟨?_, ?_, ?_, ?_⟩
  · intro rows
    unfold ec_mean
    rw [filterMap_ecOfRow_filter]
    apply List.map_congr_left
    intro e he
    rw [groupWeights_filter]
  · intro rows e m h
    unfold ec_mean at h
    rcases List.mem_map.mp h with ⟨e0, he0, heq⟩
    have hee : e0 = e := congrArg Prod.fst heq
    have hmem : e0 ∈ (rows.filterMap ecOfRow).dedup :=
      (List.Perm.mem_iff (List.perm_insertionSort _ _)).mp he0
    rw [List.mem_dedup] at hmem
    rcases List.mem_filterMap.mp hmem with ⟨r, hr, hre⟩
    exact ⟨r, hr, hee ▸ hre⟩
  · intro gd
    unfold info_df
    rw [List.map_map]
    rfl
  · intro gd kv hkv hnone
    unfold info_df
    refine List.mem_map.mpr ⟨kv, hkv, ?_⟩
    rw [hnone]
    rfl

/-- Instantiation of the hypotheses of the amended C1 at concrete inputs. -/
theorem C1_amended_silent_drop_witness :
    (∃ r ∈ [badRow, (⟨⟨6⟩, haneul⟩ : TaggedGrowRow)], ecOfRow r = some 2) ∧
    InfoRow.mk songdo 1 0 ∈ info_df [] := by
  constructor
  · apply C1_amended_silent_drop.2.1 [badRow, ⟨⟨6⟩, haneul⟩] 2 (mean [6])
    unfold ec_mean
    rw [show (([badRow, ⟨⟨6⟩, haneul⟩] : List TaggedGrowRow).filterMap ecOfRow).dedup
        = [2] from by decide]
    rw [show List.insertionSort (fun a b => a ≤ b) [(2 : Rat)] = [2] from by decide]
    simp only [List.map_cons, List.map_nil]
    rw [show groupWeights [badRow, ⟨⟨6⟩, haneul⟩] 2 = [6] from by decide]
    simp
  · exact C1_amended_silent_drop.2.2.2 [] (songdo, 1) (by decide) rfl

/-- C6: zero keyword matches make a loader return the distinguished
unavailable result (none), different from every mapping value; the
application then halts with the error view and renders nothing; a matched
file with zero data rows instead yields a valid empty-row table under its
key. -/
theorem C6_unavailable_vs_empty :
    (∀ files : List DirFile, envMatches files = [] →
      load_environment_data (some files) = .ok none) ∧
    (∀ files : List DirFile, growMatches files = [] →
      load_growth_data (some files) = .ok none) ∧
    (∀ m : EnvMap, (none : Option EnvMap) ≠ some m) ∧
    (∀ (dataDir : Option (List DirFile)) (v : AppView),
      (load_environment_data dataDir = .ok none ∨ load_growth_data dataDir = .ok none) →
      runApp dataDir = .ok v → v = .halted) ∧
    load_environment_data (some [fileA]) = .ok (some [([0x41], [])]) := by
  refine ⟨?_, ?_, fun m h => Option.noConfusion h, ?_, rfl⟩
  · intro files h
    have h2 : find_files (some files) kwEnvData = .ok [] := by
      show Except.ok (envMatches files) = Except.ok []
      rw [h]
    unfold load_environment_data
    rw [h2]
    rfl
  · intro files h
    have h2 : find_files (some files) kwGrowthData = .ok [] := by
      show Except.ok (growMatches files) = Except.ok []
      rw [h]
    unfold load_growth_data
    rw [h2]
  · intro dataDir v hor hrun
    unfold runApp at hrun
    cases henv : load_environment_data dataDir with
    | error e => rw [henv] at hrun; cases hrun
    | ok envOpt =>
      rw [henv] at hrun
      cases hgrow : load_growth_data dataDir with
      | error e => rw [hgrow] at hrun; cases hrun
      | ok growOpt =>
        rw [hgrow] at hrun
        cases envOpt with
        | none =>
          cases growOpt with
          | none => cases hrun; rfl
          | some g => cases hrun; rfl
        | some e =>
          cases growOpt with
          | none => cases hrun; rfl
          | some g =>
            exfalso
            rcases hor with h | h
            · rw [henv] at h
              cases h
            · rw [hgrow] at h
              cases h

/-- Instantiation of C6 at concrete directories: an empty directory gives the
unavailable result, and a directory with environment data but no growth data
halts the app. -/
theorem C6_unavailable_vs_empty_witness :
    load_environment_data (some []) = .ok none ∧
    AppView.halted = AppView.halted :=
  ⟨C6_unavailable_vs_empty.1 [] rfl,
   C6_unavailable_vs_empty.2.2.2.1 (some [fileSongdoNFC]) AppView.halted (Or.inr rfl) rfl⟩

/-- C5: with several matched files deriving the same site identifier, the
mapping holds the table of whichever file is processed last (last-write-wins);
with pairwise distinct identifiers the mapping holds exactly one table per
matched file, keyed in iteration order. -/
theorem C5_last_write_wins (files : List DirFile)
    (hcsv : ∀ f ∈ envMatches files, isCsvFile f = true)
    (hne : envMatches files ≠ []) :
    ∃ m, load_environment_data (some files) = .ok (some m) ∧
      (∀ k, dlookup m k =
        (((envMatches files).filter fun f => splitUnderscore f.name == k).getLast?).map
          fun f => tagEnvRows (csvRows f) k) ∧
      (((envMatches files).map fun f => splitUnderscore f.name).Nodup →
        m.map Prod.fst = ((envMatches files).map fun f => splitUnderscore f.name) ∧
        m.length = (envMatches files).length) := by
  rcases envLoop_ok (envMatches files) [] hcsv with ⟨m, hm⟩
  refine ⟨m, ?_, ?_, ?_⟩
  · show (if (envMatches files).isEmpty = true
        then (Except.ok none : Except PyError (Option EnvMap))
        else match envLoop (envMatches files) [] with
          | .error e => .error e
          | .ok m0 => .ok (some m0)) = .ok (some m)
    rw [if_neg (by simpa [List.isEmpty_iff] using hne)]
    rw [hm]
  · intro k
    rw [envLoop_lookup (envMatches files) [] m k hm]
    cases hl : ((envMatches files).filter fun f => splitUnderscore f.name == k).getLast? with
    | none => rfl
    | some f => rfl
  · intro hnd
    have hkeys := envLoop_keys (envMatches files) [] m hm (by simpa using hnd)
    refine ⟨by simpa using hkeys, ?_⟩
    have hlen : (m.map Prod.fst).length =
        ((envMatches files).map fun f => splitUnderscore f.name).length := by
      rw [hkeys]
      simp
    simpa using hlen

/-- Instantiation of C5 at a directory with two files sharing a derived
identifier. -/
theorem C5_last_write_wins_witness :
    ∃ m, load_environment_data (some [fileSongdoNFC, fileSongdoB]) = .ok (some m) ∧
      (∀ k, dlookup m k =
        (((envMatches [fileSongdoNFC, fileSongdoB]).filter
          fun f => splitUnderscore f.name == k).getLast?).map
          fun f => tagEnvRows (csvRows f) k) ∧
      (((envMatches [fileSongdoNFC, fileSongdoB]).map
          fun f => splitUnderscore f.name).Nodup →
        m.map Prod.fst = ((envMatches [fileSongdoNFC, fileSongdoB]).map
          fun f => splitUnderscore f.name) ∧
        m.length = (envMatches [fileSongdoNFC, fileSongdoB]).length) :=
  C5_last_write_wins [fileSongdoNFC, fileSongdoB] (by decide) (by decide)

theorem load_env_ok_inv (files : List DirFile) (m : EnvMap)
    (hm : load_environment_data (some files) = .ok (some m)) :
    envLoop (envMatches files) [] = .ok m := by
  have hm2 : (if (envMatches files).isEmpty = true
      then (Except.ok none : Except PyError (Option EnvMap))
      else match envLoop (envMatches files) [] with
        | .error e => .error e
        | .ok m0 => .ok (some m0)) = .ok (some m) := hm
  by_cases he : (envMatches files).isEmpty = true
  · rw [if_pos he] at hm2
    cases hm2
  · rw [if_neg he] at hm2
    cases hl : envLoop (envMatches files) [] with
    | error e => rw [hl] at hm2; cases hm2
    | ok m0 =>
      rw [hl] at hm2
      simp only [Except.ok.injEq, Option.some.injEq] at hm2
      rw [← hm2]

/-- C2 fails on the code: the loader keys its mapping by the raw filename
prefix without normalization; a directory whose two files carry the same
school name, once composed and once decomposed, yields two distinct site
identifiers whose normalized forms agree, and the decomposed key differs from
its own normalized form. -/
theorem C2_counterexample :
    load_environment_data (some [fileSongdoNFC, fileSongdoNFD]) =
      .ok (some [(songdo, [⟨envRow0, songdo⟩]), (nfd songdo, [⟨envRow0, nfd songdo⟩])]) ∧
    nfd songdo ≠ songdo ∧
    normalize_text (nfd songdo) = normalize_text songdo ∧
    nfd songdo ≠ normalize_text (nfd songdo) := by
  refine ⟨rfl, by decide, by decide, by decide⟩

/-- C2 (amended): for every matched file the derived site identifier is the
raw (un-normalized) text of the filename before the first underscore; every
mapping entry is keyed by the raw prefix of some matched file, its rows are
all tagged with exactly that key, and every matched file's raw prefix is
present in the mapping — so filenames whose prefixes differ only in
composed/decomposed form yield distinct identifiers. -/
theorem C2_amended_raw_prefix (files : List DirFile) (m : EnvMap)
    (hm : load_environment_data (some files) = .ok (some m)) :
    (∀ p ∈ m, (∃ f ∈ envMatches files, splitUnderscore f.name = p.1) ∧
      ∀ r ∈ p.2, r.school = p.1) ∧
    (∀ f ∈ envMatches files, dlookup m (splitUnderscore f.name) ≠ none) := by
  have hloop := load_env_ok_inv files m hm
  constructor
  · intro p hp
    constructor
    · rcases envLoop_keys_sub (envMatches files) [] m hloop p hp with h | h
      · simp at h
      · exact h
    · exact envLoop_tagged (envMatches files) [] m hloop (by simp) p hp
  · intro f hf
    rw [envLoop_lookup (envMatches files) [] m (splitUnderscore f.name) hloop]
    have hne : ((envMatches files).filter
        fun g => splitUnderscore g.name == splitUnderscore f.name) ≠ [] := by
      intro hemp
      have : f ∈ (envMatches files).filter
          fun g => splitUnderscore g.name == splitUnderscore f.name :=
        List.mem_filter.mpr ⟨hf, by simp⟩
      rw [hemp] at this
      cases this
    cases hl : ((envMatches files).filter
        fun g => splitUnderscore g.name == splitUnderscore f.name).getLast? with
    | none =>
      exact absurd (List.getLast?_eq_none_iff.mp hl) hne
    | some g => simp

/-- Instantiation of the amended C2 at the two-file NFC/NFD directory. -/
theorem C2_amended_raw_prefix_witness :
    (∀ p ∈ [(songdo, [(⟨envRow0, songdo⟩ : TaggedEnvRow)]),
        (nfd songdo, [⟨envRow0, nfd songdo⟩])],
      (∃ f ∈ envMatches [fileSongdoNFC, fileSongdoNFD],
        splitUnderscore f.name = p.1) ∧
      ∀ r ∈ p.2, r.school = p.1) ∧
    (∀ f ∈ envMatches [fileSongdoNFC, fileSongdoNFD],
      dlookup [(songdo, [(⟨envRow0, songdo⟩ : TaggedEnvRow)]),
        (nfd songdo, [⟨envRow0, nfd songdo⟩])] (splitUnderscore f.name) ≠ none) :=
  C2_amended_raw_prefix [fileSongdoNFC, fileSongdoNFD]
    [(songdo, [⟨envRow0, songdo⟩]), (nfd songdo, [⟨envRow0, nfd songdo⟩])] rfl

/-- C8 fails on the code: the growth loader keys its mapping by the raw sheet
name; a workbook whose sheet name is stored decomposed yields a mapping key
that differs from its normalized form (and rows tagged with the raw name). -/
theorem C8_counterexample :
    load_growth_data (some [bookNFD]) =
      .ok (some [(nfd haneul, [⟨⟨5⟩, nfd haneul⟩])]) ∧
    nfd haneul ≠ normalize_text (nfd haneul) ∧
    normalize_text (nfd haneul) = haneul := by
  refine ⟨rfl, by decide, by decide⟩

/-- C8 (amended): the Growth Dataset Loader uses only the first matched file
— two directories with the same first match load identically — and returns a
mapping built from that workbook's sheets, each entry keyed by the raw
(un-normalized) sheet name of some sheet, with every row tagged by exactly
that key, and each key holding the last sheet of that name. -/
theorem C8_amended_first_file (files files2 : List DirFile) (f0 : DirFile)
    (rest rest2 : List DirFile) (sheets : List (Str × List GrowRow))
    (h1 : growMatches files = f0 :: rest) (h2 : growMatches files2 = f0 :: rest2)
    (hwb : f0.data = .workbook sheets) :
    load_growth_data (some files) = .ok (some (growLoop sheets [])) ∧
    load_growth_data (some files) = load_growth_data (some files2) ∧
    (∀ p ∈ growLoop sheets [],
      (∃ s ∈ sheets, s.1 = p.1) ∧ ∀ r ∈ p.2, r.school = p.1) ∧
    (∀ k, dlookup (growLoop sheets []) k =
      ((sheets.filter fun s => s.1 == k).getLast?).map fun s => tagGrowRows s.2 k) := by
  have load_eq : ∀ (fs : List DirFile) (r : List DirFile), growMatches fs = f0 :: r →
      load_growth_data (some fs) = .ok (some (growLoop sheets [])) := by
    intro fs r hr
    have e1 : load_growth_data (some fs) = (match growMatches fs with
      | [] => (Except.ok none : Except PyError (Option GrowMap))
      | f :: _ => match readWorkbook f.data with
        | .error e => .error e
        | .ok ss => .ok (some (growLoop ss []))) := rfl
    rw [e1, hr]
    show (match readWorkbook f0.data with
      | .error e => (.error e : Except PyError (Option GrowMap))
      | .ok ss => .ok (some (growLoop ss []))) = .ok (some (growLoop sheets []))
    rw [hwb]
    rfl
  refine ⟨load_eq files rest h1, ?_, ?_, ?_⟩
  · rw [load_eq files rest h1, load_eq files2 rest2 h2]
  · intro p hp
    constructor
    · rcases growLoop_keys_sub sheets [] p hp with h | h
      · simp at h
      · exact h
    · exact growLoop_tagged sheets [] (by simp) p hp
  · intro k
    rw [growLoop_lookup sheets [] k]
    cases hl : (sheets.filter fun s => s.1 == k).getLast? with
    | none => rfl
    | some g => rfl

/-- Instantiation of the amended C8 at the decomposed-sheet workbook. -/
theorem C8_amended_first_file_witness :
    load_growth_data (some [bookNFD]) =
      .ok (some (growLoop [(nfd haneul, [⟨5⟩])] [])) ∧
    load_growth_data (some [bookNFD]) = load_growth_data (some [bookNFD, fileB]) ∧
    (∀ p ∈ growLoop [(nfd haneul, [(⟨5⟩ : GrowRow)])] [],
      (∃ s ∈ [(nfd haneul, [(⟨5⟩ : GrowRow)])], s.1 = p.1) ∧
      ∀ r ∈ p.2, r.school = p.1) ∧
    (∀ k, dlookup (growLoop [(nfd haneul, [(⟨5⟩ : GrowRow)])] []) k =
      (([(nfd haneul, [(⟨5⟩ : GrowRow)])].filter
        fun s => s.1 == k).getLast?).map fun s => tagGrowRows s.2 k) :=
  C8_amended_first_file [bookNFD] [bookNFD, fileB] bookNFD [] []
    [(nfd haneul, [⟨5⟩])] rfl rfl rfl

end PolarPlant
